import Mathlib

/-!
Verification of the `password_manager` storage/verification core.

Shallow embedding of `src/main.py` (a single-file command-line password
vault) and proofs of the specification's testable properties.

The program keeps an in-memory Python dict
`{"master_hash": <sha256 hexdigest>, "passwords": {site: {"username": u, "password": p}}}`,
persists it with `json.dump(data, f, indent=4)` into `storage.json`, reads it
back with `json.load`, and offers add/view/list/update/delete operations over
the `passwords` mapping, gated by a 3-attempt master-password check.

Interactive `input()` / `getpass.getpass()` values are passed to the embedded
operations as explicit string parameters; `secrets.choice` (the random source
of `generate_password`) is passed as an explicit index-picking function.
-/

/-! ## Python string primitives used by `main.py`

`main.py` normalizes interactive input with `.strip()` and `.lower()` and
tests digit-strings with `.isdigit()`.  These are embedded here on Lean
`String`/`Char`.
-/

/-- The whitespace set of Python `str.strip()` / `str.isspace()`:
ASCII whitespace (tab, LF, VT, FF, CR, space), the C1 separators
`\x1c`-`\x1f`, and the Unicode space characters. -/
def pyIsSpace (c : Char) : Bool :=
  c.toNat = 9 ∨ c.toNat = 10 ∨ c.toNat = 11 ∨ c.toNat = 12 ∨ c.toNat = 13 ∨
  (28 ≤ c.toNat ∧ c.toNat ≤ 32) ∨ c.toNat = 0x85 ∨ c.toNat = 0xa0 ∨
  c.toNat = 0x1680 ∨ (0x2000 ≤ c.toNat ∧ c.toNat ≤ 0x200a) ∨
  c.toNat = 0x2028 ∨ c.toNat = 0x2029 ∨ c.toNat = 0x202f ∨
  c.toNat = 0x205f ∨ c.toNat = 0x3000

/-- Python `str.strip()`: remove leading and trailing whitespace. -/
def pyStrip (s : String) : String :=
  String.mk (((s.toList.dropWhile pyIsSpace).reverse.dropWhile pyIsSpace).reverse)

/-- Python `str.lower()` on a single character, restricted to its action on
ASCII (`A`-`Z` map to `a`-`z`).  The full Unicode case mapping of CPython is
not modelled; every concrete site name appearing in the specification's
claims is ASCII. -/
def pyLowerChar (c : Char) : Char :=
  if 65 ≤ c.toNat ∧ c.toNat ≤ 90 then Char.ofNat (c.toNat + 32) else c

/-- Python `str.lower()` (ASCII action, see `pyLowerChar`). -/
def pyLower (s : String) : String :=
  String.mk (s.toList.map pyLowerChar)

/-- The normalization `input(...).strip().lower()`: the site-name normalization applied by
`add_password`, `view_password`, `update_password` and `delete_password`
(src/main.py lines 95, 125, 162, 204). -/
def normalizeSite (s : String) : String := pyLower (pyStrip s)

/-- The `choice == "y"` test applied to `input(...).strip().lower()`
(src/main.py lines 99-100, 177-178, 208-209). -/
def isYes (s : String) : Bool := pyLower (pyStrip s) = "y"

/-- Python `str.isdigit()` restricted to ASCII digits: true iff the string is
nonempty and all characters are `0`-`9`. -/
def pyIsDigit (s : String) : Bool :=
  s.toList ≠ [] ∧ s.toList.all (fun c => 48 ≤ c.toNat ∧ c.toNat ≤ 57)

/-- Python `int(...)` on a (checked) decimal digit string. -/
def pyInt (s : String) : Nat :=
  s.toList.foldl (fun acc c => 10 * acc + (c.toNat - 48)) 0

/-- The expression `int(length) if length.isdigit() else 16`: the generated-password length
chosen in `add_password` / `update_password` (src/main.py lines 101-102,
179-180); `length` has already been `.strip()`ped by the caller. -/
def parseLength (lenInput : String) : Nat :=
  let l := pyStrip lenInput
  if pyIsDigit l then pyInt l else 16

/-! ## Hasher: `hash_password` (src/main.py lines 18-19)

`hashlib.sha256(password.encode()).hexdigest()`: UTF-8 encode the password,
apply SHA-256, and print the 32-byte digest as 64 lowercase hex characters.
SHA-256 (FIPS 180-4) is embedded over `Nat` with explicit reduction
mod `2 ^ 32`.
-/

/-- UTF-8 encoding of one character (Python `str.encode()`), as byte values. -/
def utf8Char (c : Char) : List Nat :=
  let n := c.toNat
  if n < 0x80 then [n]
  else if n < 0x800 then [0xc0 + n / 0x40, 0x80 + n % 0x40]
  else if n < 0x10000 then
    [0xe0 + n / 0x1000, 0x80 + n / 0x40 % 0x40, 0x80 + n % 0x40]
  else
    [0xf0 + n / 0x40000, 0x80 + n / 0x1000 % 0x40, 0x80 + n / 0x40 % 0x40,
     0x80 + n % 0x40]

/-- UTF-8 encoding of a string (Python `str.encode()`), as byte values. -/
def utf8Encode (s : String) : List Nat := s.toList.flatMap utf8Char

/-- Addition of 32-bit words (reduced mod `2 ^ 32`). -/
def add32 (a b : Nat) : Nat := (a + b) % 4294967296

/-- Right rotation of a 32-bit word by `n` positions. -/
def rotr32 (n x : Nat) : Nat := x / 2 ^ n + x % 2 ^ n * 2 ^ (32 - n)

/-- SHA-256 `Ch(e,f,g)`. -/
def sha256Ch (e f g : Nat) : Nat := (e &&& f) ^^^ ((e ^^^ 0xffffffff) &&& g)

/-- SHA-256 `Maj(a,b,c)`. -/
def sha256Maj (a b c : Nat) : Nat := (a &&& b) ^^^ (a &&& c) ^^^ (b &&& c)

/-- SHA-256 `Σ0`. -/
def sha256S0 (a : Nat) : Nat := rotr32 2 a ^^^ rotr32 13 a ^^^ rotr32 22 a

/-- SHA-256 `Σ1`. -/
def sha256S1 (e : Nat) : Nat := rotr32 6 e ^^^ rotr32 11 e ^^^ rotr32 25 e

/-- SHA-256 `σ0`. -/
def sha256s0 (x : Nat) : Nat := rotr32 7 x ^^^ rotr32 18 x ^^^ (x >>> 3)

/-- SHA-256 `σ1`. -/
def sha256s1 (x : Nat) : Nat := rotr32 17 x ^^^ rotr32 19 x ^^^ (x >>> 10)

/-- The 64 SHA-256 round constants. -/
def sha256K : List Nat :=
  [1116352408, 1899447441, 3049323471, 3921009573,
   961987163, 1508970993, 2453635748, 2870763221,
   3624381080, 310598401, 607225278, 1426881987,
   1925078388, 2162078206, 2614888103, 3248222580,
   3835390401, 4022224774, 264347078, 604807628,
   770255983, 1249150122, 1555081692, 1996064986,
   2554220882, 2821834349, 2952996808, 3210313671,
   3336571891, 3584528711, 113926993, 338241895,
   666307205, 773529912, 1294757372, 1396182291,
   1695183700, 1986661051, 2177026350, 2456956037,
   2730485921, 2820302411, 3259730800, 3345764771,
   3516065817, 3600352804, 4094571909, 275423344,
   430227734, 506948616, 659060556, 883997877,
   958139571, 1322822218, 1537002063, 1747873779,
   1955562222, 2024104815, 2227730452, 2361852424,
   2428436474, 2756734187, 3204031479, 3329325298]

/-- Extend a 16-word message block by `n` additional schedule words
(`w[i] = σ1(w[i-2]) + w[i-7] + σ0(w[i-15]) + w[i-16]`, all mod `2 ^ 32`). -/
def sha256Extend (ws : List Nat) : Nat → List Nat
  | 0 => ws
  | n + 1 =>
    let prev := sha256Extend ws n
    let i := prev.length
    prev ++ [add32 (add32 (sha256s1 (prev.getD (i - 2) 0)) (prev.getD (i - 7) 0))
                   (add32 (sha256s0 (prev.getD (i - 15) 0)) (prev.getD (i - 16) 0))]

/-- The 64 compression rounds, consuming paired (round constant, schedule
word) values. -/
def sha256Rounds :
    List (Nat × Nat) → Nat × Nat × Nat × Nat × Nat × Nat × Nat × Nat →
    Nat × Nat × Nat × Nat × Nat × Nat × Nat × Nat
  | [], st => st
  | (ki, wi) :: rest, (a, b, c, d, e, f, g, h) =>
    let t1 := add32 (add32 (add32 h (sha256S1 e)) (add32 (sha256Ch e f g) ki)) wi
    let t2 := add32 (sha256S0 a) (sha256Maj a b c)
    sha256Rounds rest (add32 t1 t2, a, b, c, add32 d t1, e, f, g)

/-- Compress one 16-word block into the running hash state. -/
def sha256Compress (H : Nat × Nat × Nat × Nat × Nat × Nat × Nat × Nat)
    (block : List Nat) : Nat × Nat × Nat × Nat × Nat × Nat × Nat × Nat :=
  let (h0, h1, h2, h3, h4, h5, h6, h7) := H
  let (a, b, c, d, e, f, g, h) := sha256Rounds (sha256K.zip (sha256Extend block 48)) H
  (add32 h0 a, add32 h1 b, add32 h2 c, add32 h3 d,
   add32 h4 e, add32 h5 f, add32 h6 g, add32 h7 h)

/-- Group a byte list into big-endian 32-bit words (the padded message length
is always a multiple of 4 bytes). -/
def bytesToWords : List Nat → List Nat
  | b0 :: b1 :: b2 :: b3 :: rest =>
    (b0 * 0x1000000 + b1 * 0x10000 + b2 * 0x100 + b3) :: bytesToWords rest
  | _ => []

/-- Fold the compression function over the 16-word blocks of the padded
message. -/
def sha256Blocks (H : Nat × Nat × Nat × Nat × Nat × Nat × Nat × Nat) :
    List Nat → Nat × Nat × Nat × Nat × Nat × Nat × Nat × Nat
  | w0 :: w1 :: w2 :: w3 :: w4 :: w5 :: w6 :: w7 ::
    w8 :: w9 :: w10 :: w11 :: w12 :: w13 :: w14 :: w15 :: rest =>
    sha256Blocks (sha256Compress H
      [w0, w1, w2, w3, w4, w5, w6, w7, w8, w9, w10, w11, w12, w13, w14, w15]) rest
  | _ => H

/-- The 64-bit big-endian byte encoding of the message bit length. -/
def be8 (n : Nat) : List Nat :=
  [n / 2 ^ 56 % 256, n / 2 ^ 48 % 256, n / 2 ^ 40 % 256, n / 2 ^ 32 % 256,
   n / 2 ^ 24 % 256, n / 2 ^ 16 % 256, n / 2 ^ 8 % 256, n % 256]

/-- SHA-256 padding: append `0x80`, zero bytes up to 56 mod 64, then the
bit length as 8 big-endian bytes. -/
def sha256Pad (msg : List Nat) : List Nat :=
  msg ++ 0x80 :: List.replicate ((119 - msg.length % 64) % 64) 0 ++
    be8 (8 * msg.length)

/-- One lowercase hex digit. -/
def hexDigitChar (n : Nat) : Char :=
  if n < 10 then Char.ofNat (48 + n) else Char.ofNat (87 + n)

/-- A 32-bit word as 8 lowercase hex characters (big-endian). -/
def hex8 (w : Nat) : List Char :=
  (List.range 8).map (fun i => hexDigitChar (w / 16 ^ (7 - i) % 16))

/-- SHA-256 of a byte string, rendered as the 64-character lowercase
hexdigest (Python `hashlib.sha256(b).hexdigest()`). -/
def sha256Hex (msg : List Nat) : String :=
  let (a, b, c, d, e, f, g, h) :=
    sha256Blocks (1779033703, 3144134277, 1013904242, 2773480762,
                  1359893119, 2600822924, 528734635, 1541459225)
      (bytesToWords (sha256Pad msg))
  String.mk ([a, b, c, d, e, f, g, h].flatMap hex8)

/-- Function `hash_password` (src/main.py lines 18-19):
`hashlib.sha256(password.encode()).hexdigest()`. -/
def hash_password (password : String) : String :=
  sha256Hex (utf8Encode password)


/-! ## Generator: `generate_password` (src/main.py lines 24-28)

`chars = string.ascii_letters + string.digits + string.punctuation`, then
`"".join(secrets.choice(chars) for _ in range(length))`.  The random source
`secrets.choice` is embedded as an explicit picking function `rand`: position
`i` of the output is the pool character at index `rand i % pool size`
(every pool element is reachable, matching a uniform random pick).
-/

/-- Python `string.ascii_letters`: `a`-`z` then `A`-`Z`. -/
def ascii_letters : List Char :=
  (List.range 26).map (fun i => Char.ofNat (97 + i)) ++
  (List.range 26).map (fun i => Char.ofNat (65 + i))

/-- Python `string.digits`: `0`-`9`. -/
def ascii_digits : List Char :=
  (List.range 10).map (fun i => Char.ofNat (48 + i))

/-- Python `string.punctuation`: the printable ASCII characters
(codes 33-126) that are neither letters nor digits, in code order. -/
def ascii_punctuation : List Char :=
  (List.range 127).filterMap (fun n =>
    if (33 ≤ n ∧ n ≤ 47) ∨ (58 ≤ n ∧ n ≤ 64) ∨ (91 ≤ n ∧ n ≤ 96) ∨
       (123 ≤ n ∧ n ≤ 126) then some (Char.ofNat n) else none)

/-- The character pool `chars` of `generate_password` (src/main.py line 26). -/
def passwordChars : List Char := ascii_letters ++ ascii_digits ++ ascii_punctuation

/-- Function `generate_password` (src/main.py lines 24-28) with the `secrets.choice`
randomness supplied by `rand`. -/
def generate_password (rand : Nat → Nat) (length : Nat) : String :=
  String.mk ((List.range length).map (fun i =>
    passwordChars.getD (rand i % passwordChars.length) ' '))

/-! ## Data model

The in-memory state built by `setup_master_password` and threaded through
every menu operation is the dict
`{"master_hash": <hex digest>, "passwords": {site: {"username": u, "password": p}}}`.
Python dicts preserve insertion order and have unique keys; they are embedded
as association lists with Python's dict semantics (`dictLookup`/`dictInsert`/
`dictErase` below: first-occurrence lookup, in-place value replacement,
append of new keys).
-/

/-- One value of the `passwords` mapping: the dict
`{"username": ..., "password": ...}` built by `add_password`
(src/main.py lines 111-114). -/
structure CredentialRecord where
  username : String
  password : String
deriving DecidableEq, Repr

/-- The whole persisted/in-memory structure: the dict with keys
`master_hash` and `passwords` built by `setup_master_password`
(src/main.py lines 56-59). -/
structure VaultFile where
  master_hash : String
  passwords : List (String × CredentialRecord)
deriving DecidableEq, Repr

/-- Python `d[k]` / `k in d` on a dict: value at the first occurrence of the
key. -/
def dictLookup : List (String × CredentialRecord) → String → Option CredentialRecord
  | [], _ => none
  | (k1, v1) :: rest, k => if k1 = k then some v1 else dictLookup rest k

/-- Python `d[k] = v`: replace the value in place if the key is present
(keys are unique in any state reachable from a Python dict), else append. -/
def dictInsert : List (String × CredentialRecord) → String → CredentialRecord →
    List (String × CredentialRecord)
  | [], k, v => [(k, v)]
  | (k1, v1) :: rest, k, v =>
    if k1 = k then (k1, v) :: rest else (k1, v1) :: dictInsert rest k v

/-- Python `del d[k]`: remove the (unique) occurrence of the key. -/
def dictErase : List (String × CredentialRecord) → String →
    List (String × CredentialRecord)
  | [], _ => []
  | (k1, v1) :: rest, k => if k1 = k then rest else (k1, v1) :: dictErase rest k

/-- A VaultFile is valid (spec section 3) when its site names are unique and
case-normalized.  Every state a run of the program can reach satisfies this:
Python dict keys are unique, and every key written comes from
`input(...).strip().lower()`. -/
def validVault (v : VaultFile) : Prop :=
  (v.passwords.map Prod.fst).Nodup ∧
  ∀ s ∈ v.passwords.map Prod.fst, normalizeSite s = s

instance : DecidablePred validVault := fun v => by
  unfold validVault; infer_instance

/-! ## Vault operations (src/main.py lines 42-217)

Each operation takes the values read from the console as explicit string
parameters.  The printed text is not modelled; the observable outcome of an
operation is its result state plus an outcome tag mirroring which branch of
the source ran.
-/

/-- Function `setup_master_password` (src/main.py lines 42-63), after the
confirmation loop has ended with `master == confirm`: the data structure
built and returned, `{"master_hash": hash_password(master), "passwords": {}}`. -/
def setup_master_password (master : String) : VaultFile :=
  { master_hash := hash_password master, passwords := [] }

/-- The password chosen in `add_password` / `update_password`
(src/main.py lines 99-107, 177-187 generate branch): the generated string if
the answer to "Generate a strong password?" is `y`, else the manually typed
one. -/
def pickedPassword (choiceInput lenInput : String) (rand : Nat → Nat)
    (manualInput : String) : String :=
  if isYes choiceInput then generate_password rand (parseLength lenInput)
  else manualInput

/-- Function `add_password` (src/main.py lines 90-119): normalize the site, strip the
username, choose the password (generated or manual), and set
`data["passwords"][site]` to the new record.  (`save_storage` is modelled
separately, see `add_password_io`.) -/
def add_password (data : VaultFile) (siteInput usernameInput choiceInput
    lenInput : String) (rand : Nat → Nat) (manualInput : String) : VaultFile :=
  let site := normalizeSite siteInput
  let username := pyStrip usernameInput
  let password := pickedPassword choiceInput lenInput rand manualInput
  { data with passwords := dictInsert data.passwords site ⟨username, password⟩ }

/-- Function `view_password` (src/main.py lines 123-135): normalize the site and look
it up; `none` models the "No entry found" branch. -/
def view_password (data : VaultFile) (siteInput : String) : Option CredentialRecord :=
  dictLookup data.passwords (normalizeSite siteInput)

/-- Function `list_sites` (src/main.py lines 139-151): the site names in insertion
order. -/
def list_sites (data : VaultFile) : List String :=
  data.passwords.map Prod.fst

/-- Which branch of `update_password` ran. -/
inductive UpdateOutcome where
  /-- Branch `if not data["passwords"]: return` (src/main.py lines 159-160): the
  vault is empty; the function returns before asking for a site. -/
  | emptyVault
  /-- Branch `if site not in data["passwords"]` (src/main.py lines 164-166). -/
  | notFound
  /-- The entry was found and rewritten (src/main.py lines 168-190). -/
  | updated
deriving DecidableEq, Repr

/-- Function `update_password` (src/main.py lines 155-190).  On the found path:
the stripped new username replaces the old one only if nonempty; the
password is replaced by a generated one if the generate answer is `y`,
else by the typed one only if nonempty (`getpass` input is not stripped). -/
def update_password (data : VaultFile) (siteInput newUserInput choiceInput
    lenInput : String) (rand : Nat → Nat) (newPassInput : String) :
    VaultFile × UpdateOutcome :=
  if data.passwords = [] then (data, .emptyVault)
  else
    let site := normalizeSite siteInput
    match dictLookup data.passwords site with
    | none => (data, .notFound)
    | some r =>
      let newUser := pyStrip newUserInput
      let r1 := if newUser ≠ "" then { r with username := newUser } else r
      let r2 :=
        if isYes choiceInput then
          { r1 with password := generate_password rand (parseLength lenInput) }
        else if newPassInput ≠ "" then { r1 with password := newPassInput }
        else r1
      ({ data with passwords := dictInsert data.passwords site r2 }, .updated)

/-- Which branch of `delete_password` ran. -/
inductive DeleteOutcome where
  /-- Branch `if not data["passwords"]: return` (src/main.py lines 201-202). -/
  | emptyVault
  /-- The "No entry found" branch (src/main.py lines 216-217). -/
  | notFound
  /-- Confirmed deletion (src/main.py lines 209-213). -/
  | deleted
  /-- The "Cancelled" branch (src/main.py lines 214-215). -/
  | cancelled
deriving DecidableEq, Repr

/-- Function `delete_password` (src/main.py lines 194-217): confirmation is the
`confirm == "y"` test on `input(...).strip().lower()`. -/
def delete_password (data : VaultFile) (siteInput confirmInput : String) :
    VaultFile × DeleteOutcome :=
  if data.passwords = [] then (data, .emptyVault)
  else
    let site := normalizeSite siteInput
    match dictLookup data.passwords site with
    | none => (data, .notFound)
    | some _ =>
      if isYes confirmInput then
        ({ data with passwords := dictErase data.passwords site }, .deleted)
      else (data, .cancelled)

/-- Function `verify_master_password` (src/main.py lines 67-86), unfolded loop:
`remaining` iterations of `for attempt in range(3)` are left, `i` attempts
have been consumed.  Returns the boolean result together with the total
number of attempt-provider calls. -/
def verifyAux (masterHash : String) (provider : Nat → String) :
    Nat → Nat → Bool × Nat
  | 0, i => (false, i)
  | remaining + 1, i =>
    if hash_password (provider i) = masterHash then (true, i + 1)
    else verifyAux masterHash provider remaining (i + 1)

/-- Function `verify_master_password` (src/main.py lines 67-86): up to 3 attempts,
each read from `provider`; returns `(granted, attempts consumed)`. -/
def verify_master_password (data : VaultFile) (provider : Nat → String) :
    Bool × Nat :=
  verifyAux data.master_hash provider 3 0


/-! ## Store: the persisted JSON text (src/main.py lines 31-38)

`save_storage` is `json.dump(data, f, indent=4)` and `load_storage` is
`json.load(f)`.  Every value the program ever writes is a string or a
string-keyed object, so the JSON values are embedded as that subset
(`Json` below); the serializer follows CPython's `json` module exactly on
this subset (ASCII output with `\uXXXX` escapes, 4-space indentation,
`", "`/`": "` separators), and the parser accepts the corresponding JSON
text (strings with all JSON escapes including surrogate pairs, objects,
whitespace), failing with `none` where `json.load` raises
`json.JSONDecodeError`.  (Lone-surrogate `\uXXXX` escapes, which CPython
tolerates but which denote no Unicode scalar value, are rejected; the
program never writes them.) -/

mutual
/-- A JSON value of the shape `main.py` reads and writes: a string or an
object. -/
inductive Json where
  | str : String → Json
  | obj : JMembers → Json
/-- The ordered key/value members of a JSON object. -/
inductive JMembers where
  | nil : JMembers
  | cons : String → Json → JMembers → JMembers
end

/-- The escape CPython's `json.dump` (with the default `ensure_ascii=True`)
emits for one character: `\"` and `\\`, the five short escapes, printable
ASCII verbatim, `\uXXXX` otherwise, astral code points as a surrogate pair. -/
def escChar (c : Char) : List Char :=
  if c = '"' then ['\\', '"']
  else if c = '\\' then ['\\', '\\']
  else if c.toNat = 8 then ['\\', 'b']
  else if c.toNat = 9 then ['\\', 't']
  else if c.toNat = 10 then ['\\', 'n']
  else if c.toNat = 12 then ['\\', 'f']
  else if c.toNat = 13 then ['\\', 'r']
  else if 0x20 ≤ c.toNat ∧ c.toNat ≤ 0x7e then [c]
  else if c.toNat < 0x10000 then '\\' :: 'u' :: hex4 c.toNat
  else
    '\\' :: 'u' :: hex4 (0xd800 + (c.toNat - 0x10000) / 0x400) ++
    '\\' :: 'u' :: hex4 (0xdc00 + (c.toNat - 0x10000) % 0x400)
where
  /-- Four lowercase hex digits (`"\u%04x"`). -/
  hex4 (n : Nat) : List Char :=
    [hexDigitChar (n / 4096 % 16), hexDigitChar (n / 256 % 16),
     hexDigitChar (n / 16 % 16), hexDigitChar (n % 16)]

/-- A JSON string literal as `json.dump` writes it. -/
def encodeJsonString (s : String) : List Char :=
  '"' :: s.toList.flatMap escChar ++ ['"']

/-- The newline-plus-indentation separator `json.dump(…, indent=4)` emits
before a member at nesting depth `lvl`. -/
def nlIndent (lvl : Nat) : List Char :=
  '\n' :: List.replicate (4 * lvl) ' '

mutual
/-- The text `json.dump(…, indent=4)` writes for a value at nesting depth
`lvl`: strings per `encodeJsonString`; `{}` for an empty object; otherwise
members on their own indented lines, keys separated from values by `": "`,
members separated by `","`. -/
def jdump : Nat → Json → List Char
  | _, .str s => encodeJsonString s
  | _, .obj .nil => ['{', '}']
  | lvl, .obj (.cons k v ms) =>
    '{' :: (nlIndent (lvl + 1) ++ encodeJsonString k ++ ':' :: ' ' ::
      jdump (lvl + 1) v ++ jdumpMems (lvl + 1) ms ++ nlIndent lvl ++ ['}'])
/-- The second and later members of an object, each preceded by `","` and
its indentation. -/
def jdumpMems : Nat → JMembers → List Char
  | _, .nil => []
  | lvl, .cons k v ms =>
    ',' :: (nlIndent lvl ++ encodeJsonString k ++ ':' :: ' ' ::
      jdump lvl v ++ jdumpMems lvl ms)
end

/-- JSON insignificant whitespace (space, tab, newline, carriage return),
skipped between tokens by the parser. -/
def skipWs : List Char → List Char
  | [] => []
  | c :: cs =>
    if c = ' ' ∨ c.toNat = 9 ∨ c.toNat = 10 ∨ c.toNat = 13 then skipWs cs
    else c :: cs

/-- The value of one hex digit (`json.load` accepts both cases). -/
def hexVal (c : Char) : Option Nat :=
  if 48 ≤ c.toNat ∧ c.toNat ≤ 57 then some (c.toNat - 48)
  else if 97 ≤ c.toNat ∧ c.toNat ≤ 102 then some (c.toNat - 87)
  else if 65 ≤ c.toNat ∧ c.toNat ≤ 70 then some (c.toNat - 55)
  else none

/-- The value of a four-hex-digit `\uXXXX` escape. -/
def hex4Val (a b c d : Char) : Option Nat :=
  match hexVal a, hexVal b, hexVal c, hexVal d with
  | some x, some y, some z, some w => some (4096 * x + 256 * y + 16 * z + w)
  | _, _, _, _ => none

/-- The character denoted by a single-character escape. -/
def escOf : Char → Option Char
  | '"' => some '"'
  | '\\' => some '\\'
  | '/' => some '/'
  | 'b' => some (Char.ofNat 8)
  | 'f' => some (Char.ofNat 12)
  | 'n' => some (Char.ofNat 10)
  | 'r' => some (Char.ofNat 13)
  | 't' => some (Char.ofNat 9)
  | _ => none

/-- Parse the body of a JSON string literal (the opening quote already
consumed): returns the decoded characters and the input after the closing
quote.  Handles the short escapes, `\uXXXX`, surrogate pairs, and literal
characters (control characters are rejected, as by `json.load` in its
default strict mode).  The fuel argument is a modelling device only: each
step consumes at least one input character, and every call site supplies
more fuel than the input length, so the fuel never runs out on any input. -/
def parseStrBody : Nat → List Char → Option (List Char × List Char)
  | 0, _ => none
  | _ + 1, [] => none
  | f + 1, c :: cs =>
    if c = '"' then some ([], cs)
    else if c = '\\' then
      match cs with
      | 'u' :: h1 :: h2 :: h3 :: h4 :: cs1 =>
        (match hex4Val h1 h2 h3 h4 with
         | none => none
         | some n =>
           if n < 0xd800 ∨ 0xe000 ≤ n then
             (parseStrBody f cs1).map (fun p => (Char.ofNat n :: p.1, p.2))
           else if n ≤ 0xdbff then
             match cs1 with
             | '\\' :: 'u' :: g1 :: g2 :: g3 :: g4 :: cs2 =>
               (match hex4Val g1 g2 g3 g4 with
                | none => none
                | some m =>
                  if 0xdc00 ≤ m ∧ m ≤ 0xdfff then
                    (parseStrBody f cs2).map (fun p =>
                      (Char.ofNat (0x10000 + (n - 0xd800) * 0x400 + (m - 0xdc00)) :: p.1,
                       p.2))
                  else none)
             | _ => none
           else none)
      | e :: cs1 =>
        (match escOf e with
         | none => none
         | some ch => (parseStrBody f cs1).map (fun p => (ch :: p.1, p.2)))
      | [] => none
    else if 0x20 ≤ c.toNat then (parseStrBody f cs).map (fun p => (c :: p.1, p.2))
    else none

/-- Parse the members of an object (at least one; the empty object is
handled by `parseVal`), with values parsed by `pv`.  The fuel `g` bounds
the number of members. -/
def parseMemsWith (pv : List Char → Option (Json × List Char)) :
    Nat → List Char → Option (JMembers × List Char)
  | 0, _ => none
  | g + 1, cs =>
    match skipWs cs with
    | '"' :: cs1 =>
      match parseStrBody (cs1.length + 1) cs1 with
      | some (k, cs2) =>
        (match skipWs cs2 with
         | ':' :: cs3 =>
           match pv cs3 with
           | some (v, cs4) =>
             (match skipWs cs4 with
              | ',' :: cs5 =>
                (parseMemsWith pv g cs5).map
                  (fun p => (JMembers.cons (String.mk k) v p.1, p.2))
              | '}' :: cs5 => some (JMembers.cons (String.mk k) v .nil, cs5)
              | _ => none)
           | none => none
         | _ => none)
      | none => none
    | _ => none

/-- Parse one JSON value of the string/object subset, after optional
whitespace.  The fuel `f` bounds the nesting depth and member counts;
`json_loads` supplies more fuel than any input can consume. -/
def parseVal : Nat → List Char → Option (Json × List Char)
  | 0, _ => none
  | f + 1, cs =>
    match skipWs cs with
    | '"' :: cs1 =>
      (parseStrBody (cs1.length + 1) cs1).map (fun p => (Json.str (String.mk p.1), p.2))
    | '{' :: cs1 =>
      (match skipWs cs1 with
       | '}' :: cs2 => some (Json.obj .nil, cs2)
       | _ => (parseMemsWith (fun cs => parseVal f cs) f cs1).map
                (fun p => (Json.obj p.1, p.2)))
    | _ => none

/-- Model of `json.loads`: parse a complete document; trailing non-whitespace (or any
parse failure) is a `json.JSONDecodeError`, modelled as `none`. -/
def json_loads (s : String) : Option Json :=
  match parseVal (s.toList.length + 1) s.toList with
  | some (j, rest) =>
    (match skipWs rest with
     | [] => some j
     | _ => none)
  | none => none

/-- The JSON image of one credential record: the dict
`{"username": ..., "password": ...}` exactly as `add_password` builds it
(src/main.py lines 111-114). -/
def credToJson (r : CredentialRecord) : Json :=
  .obj (.cons "username" (.str r.username) (.cons "password" (.str r.password) .nil))

/-- The JSON image of the `passwords` mapping, in insertion order. -/
def passwordsToJson : List (String × CredentialRecord) → JMembers
  | [] => .nil
  | (s, r) :: rest => .cons s (credToJson r) (passwordsToJson rest)

/-- The JSON image of the whole data structure: the dict
`{"master_hash": ..., "passwords": {...}}` (src/main.py lines 56-59). -/
def toJson (v : VaultFile) : Json :=
  .obj (.cons "master_hash" (.str v.master_hash)
    (.cons "passwords" (.obj (passwordsToJson v.passwords)) .nil))

/-- Read a credential record back from its JSON image: the fields
`entry["username"]` and `entry["password"]` the program accesses
(src/main.py lines 129-132), at the positions `save_storage` writes them. -/
def credFromJson : Json → Option CredentialRecord
  | .obj (.cons "username" (.str u) (.cons "password" (.str p) .nil)) =>
    some { username := u, password := p }
  | _ => none

/-- Read the `passwords` mapping back from its JSON image. -/
def passwordsFromJson : JMembers → Option (List (String × CredentialRecord))
  | .nil => some []
  | .cons s e rest =>
    match credFromJson e, passwordsFromJson rest with
    | some r, some l => some ((s, r) :: l)
    | _, _ => none

/-- Read a `VaultFile` back from its JSON image: the fields
`data["master_hash"]` and `data["passwords"]` the program accesses
(src/main.py lines 77, 111, 128), at the positions `save_storage` writes
them. -/
def vaultFromJson : Json → Option VaultFile
  | .obj (.cons "master_hash" (.str m) (.cons "passwords" (.obj ps) .nil)) =>
    (passwordsFromJson ps).map (fun l => { master_hash := m, passwords := l })
  | _ => none

/-- A raised Python exception that no handler in `main.py` catches. -/
inductive PyError where
  /-- Error `json.JSONDecodeError` raised by `json.load` on unparseable content. -/
  | jsonDecodeError
  /-- Error `IOError`/`OSError` raised by `open(..., "w")`/`json.dump` on a write
  failure. -/
  | ioError
deriving DecidableEq, Repr

/-- Function `save_storage` (src/main.py lines 31-33): the exact text
`json.dump(data, f, indent=4)` writes to `storage.json`. -/
def save_storage (data : VaultFile) : String :=
  String.mk (jdump 0 (toJson data))

/-- Function `load_storage` (src/main.py lines 36-38): `json.load(f)` on the file
content; `.error .jsonDecodeError` models the raised
`json.JSONDecodeError`. -/
def load_storage (content : String) : Except PyError Json :=
  match json_loads content with
  | some j => .ok j
  | none => .error .jsonDecodeError

/-- The data-acquisition phase of `__main__` (src/main.py lines 256-263):
if `storage.json` exists (`storageFile = some content`), `data =
load_storage()` — with no `try`/`except` anywhere in the program, so a
raised `JSONDecodeError` propagates out of `__main__` and terminates the
process with a traceback, modelled by `.error`; otherwise the first-run
setup flow builds the data (with confirmed master password
`setupMaster`). -/
def main_acquire_data (storageFile : Option String) (setupMaster : String) :
    Except PyError Json :=
  match storageFile with
  | some content => load_storage content
  | none => .ok (toJson (setup_master_password setupMaster))


/-! ## Mutating operations with the save step (src/main.py lines 117, 189, 212)

Each mutating operation first updates the dict `data` in place and only then
calls `save_storage(data)`.  `save_storage` has no error handling; a raised
`IOError` propagates out of the operation (and, with no handler anywhere, out
of the process), *after* the in-memory mutation has already happened.
`writeOk` says whether the `open(..., "w")`/`json.dump` write succeeds; the
returned pair is (the in-memory state after the call, the save result:
`.ok` carries the text written to `storage.json`). -/

/-- Function `save_storage` with a possibly failing write. -/
def save_storage_io (writeOk : Bool) (data : VaultFile) : Except PyError String :=
  if writeOk then .ok (save_storage data) else .error .ioError

/-- Function `add_password` including its `save_storage(data)` call
(src/main.py line 117): the dict is mutated at lines 111-114, before the
save. -/
def add_password_io (data : VaultFile) (siteInput usernameInput choiceInput
    lenInput : String) (rand : Nat → Nat) (manualInput : String)
    (writeOk : Bool) : VaultFile × Except PyError String :=
  let d := add_password data siteInput usernameInput choiceInput lenInput rand manualInput
  (d, save_storage_io writeOk d)

/-- Function `update_password` including its `save_storage(data)` call
(src/main.py line 189): on the found path the dict is mutated at lines
171-187, before the save; the early-return paths never reach the save. -/
def update_password_io (data : VaultFile) (siteInput newUserInput choiceInput
    lenInput : String) (rand : Nat → Nat) (newPassInput : String)
    (writeOk : Bool) : VaultFile × UpdateOutcome × Except PyError String :=
  let (d, out) := update_password data siteInput newUserInput choiceInput
    lenInput rand newPassInput
  match out with
  | .updated => (d, out, save_storage_io writeOk d)
  | _ => (d, out, .ok "")

/-- Function `delete_password` including its `save_storage(data)` call
(src/main.py line 212): on the confirmed path the entry is deleted at line
211, before the save; the other paths never reach the save. -/
def delete_password_io (data : VaultFile) (siteInput confirmInput : String)
    (writeOk : Bool) : VaultFile × DeleteOutcome × Except PyError String :=
  let (d, out) := delete_password data siteInput confirmInput
  match out with
  | .deleted => (d, out, save_storage_io writeOk d)
  | _ => (d, out, .ok "")

/-! ## Operation sequences -/

/-- One menu operation (src/main.py lines 235-244) with all its console
inputs. -/
inductive VaultOp where
  /-- Menu option 1. -/
  | add (siteInput usernameInput choiceInput lenInput : String)
        (rand : Nat → Nat) (manualInput : String)
  /-- Menu option 2. -/
  | view (siteInput : String)
  /-- Menu option 3. -/
  | list
  /-- Menu option 4. -/
  | update (siteInput newUserInput choiceInput lenInput : String)
           (rand : Nat → Nat) (newPassInput : String)
  /-- Menu option 5. -/
  | delete (siteInput confirmInput : String)

/-- The state after one menu operation (`view` and `list` never modify
`data`). -/
def applyOp (data : VaultFile) : VaultOp → VaultFile
  | .add s u c l r m => add_password data s u c l r m
  | .view _ => data
  | .list => data
  | .update s nu c l r np => (update_password data s nu c l r np).1
  | .delete s cf => (delete_password data s cf).1

/-- The state after a sequence of menu operations. -/
def applyOps (data : VaultFile) (ops : List VaultOp) : VaultFile :=
  ops.foldl applyOp data

/-! ## The untyped (JSON-level) view of the operations

Python is untyped: the operations run against the raw dict.  To state the
shape invariant (claim C10) without assuming it, the dict mutations of
`add_password`/`update_password`/`delete_password` are also embedded
directly on `Json` values, each step mirroring one subscript
access/assignment of the source; `none` models a raised
`KeyError`/`TypeError` (subscripting a missing key or a non-dict).  The
refinement theorems below show these agree with the typed operations on
well-formed states. -/

/-- Python `d[k]` on a JSON object's members (raises, i.e. `none`, if
absent — callers in `main.py` only subscript after an `in` test). -/
def jlookup : JMembers → String → Option Json
  | .nil, _ => none
  | .cons k1 v1 rest, k => if k1 = k then some v1 else jlookup rest k

/-- Python `d[k] = v` on a JSON object's members. -/
def jset : JMembers → String → Json → JMembers
  | .nil, k, v => .cons k v .nil
  | .cons k1 v1 rest, k, v =>
    if k1 = k then .cons k1 v rest else .cons k1 v1 (jset rest k v)

/-- Python `del d[k]` on a JSON object's members. -/
def jerase : JMembers → String → JMembers
  | .nil, _ => .nil
  | .cons k1 v1 rest, k => if k1 = k then rest else .cons k1 v1 (jerase rest k)

/-- Python `len(d) == 0` (`not d`) on a JSON object's members. -/
def jIsEmpty : JMembers → Bool
  | .nil => true
  | .cons _ _ _ => false

/-- Access of `data["passwords"]` as the code reads it, requiring (as every use in
`main.py` does) that `data` and the field are dicts. -/
def jPasswords : Json → Option JMembers
  | .obj ms =>
    match jlookup ms "passwords" with
    | some (.obj ps) => some ps
    | _ => none
  | _ => none

/-- Rebuild `data` after `data["passwords"]` was mutated in place. -/
def jSetPasswords : Json → JMembers → Option Json
  | .obj ms, ps => some (.obj (jset ms "passwords" (.obj ps)))
  | _, _ => none

/-- Function `add_password` on the raw dict:
`data["passwords"][site] = {"username": username, "password": password}`
(src/main.py lines 111-114). -/
def jAdd (j : Json) (siteInput usernameInput choiceInput lenInput : String)
    (rand : Nat → Nat) (manualInput : String) : Option Json :=
  match jPasswords j with
  | some ps =>
    jSetPasswords j (jset ps (normalizeSite siteInput)
      (.obj (.cons "username" (.str (pyStrip usernameInput))
        (.cons "password" (.str (pickedPassword choiceInput lenInput rand manualInput))
          .nil))))
  | none => none

/-- Function `update_password` on the raw dict (src/main.py lines 155-190):
early return on an empty or missing site, else in-place field assignments
`data["passwords"][site]["username"] = ...` /
`...["password"] = ...` guarded as in the source. -/
def jUpdate (j : Json) (siteInput newUserInput choiceInput lenInput : String)
    (rand : Nat → Nat) (newPassInput : String) : Option Json :=
  match jPasswords j with
  | some ps =>
    if jIsEmpty ps then some j
    else
      let site := normalizeSite siteInput
      match jlookup ps site with
      | none => some j
      | some entry =>
        match entry with
        | .obj fields =>
          let newUser := pyStrip newUserInput
          let fields1 := if newUser ≠ "" then jset fields "username" (.str newUser)
                         else fields
          let fields2 :=
            if isYes choiceInput then
              jset fields1 "password"
                (.str (generate_password rand (parseLength lenInput)))
            else if newPassInput ≠ "" then jset fields1 "password" (.str newPassInput)
            else fields1
          jSetPasswords j (jset ps site (.obj fields2))
        | _ => none
  | none => none

/-- Function `delete_password` on the raw dict (src/main.py lines 194-217). -/
def jDelete (j : Json) (siteInput confirmInput : String) : Option Json :=
  match jPasswords j with
  | some ps =>
    if jIsEmpty ps then some j
    else
      let site := normalizeSite siteInput
      match jlookup ps site with
      | none => some j
      | some _ =>
        if isYes confirmInput then jSetPasswords j (jerase ps site)
        else some j
  | none => none

/-- One menu operation on the raw dict (`view_password` and `list_sites`
only read `data["passwords"]`, which must be subscriptable). -/
def jApplyOp (j : Json) : VaultOp → Option Json
  | .add s u c l r m => jAdd j s u c l r m
  | .view _ => (jPasswords j).map (fun _ => j)
  | .list => (jPasswords j).map (fun _ => j)
  | .update s nu c l r np => jUpdate j s nu c l r np
  | .delete s cf => jDelete j s cf

/-- A sequence of menu operations on the raw dict; `none` as soon as one
raises. -/
def jApplyOps (j : Json) : List VaultOp → Option Json
  | [] => some j
  | op :: ops =>
    match jApplyOp j op with
    | some j1 => jApplyOps j1 ops
    | none => none

/-- Lookup of `view_password` on the raw dict:
`data["passwords"][site]` after the `site in data["passwords"]` test
(src/main.py lines 128-129). -/
def jViewEntry (j : Json) (siteInput : String) : Option Json :=
  match jPasswords j with
  | some ps => jlookup ps (normalizeSite siteInput)
  | none => none

mutual
/-- Parser fuel sufficient for one value: one unit for the value itself
plus the member budget of its object members. -/
def jfuel : Json → Nat
  | .str _ => 1
  | .obj ms => 1 + jmemsFuel ms
/-- Parser fuel sufficient for an object's members: one unit per member
plus the fuel of each member value. -/
def jmemsFuel : JMembers → Nat
  | .nil => 0
  | .cons _ v ms => 1 + jfuel v + jmemsFuel ms
end

/-! ## Association-list (Python dict) lemmas -/

theorem dictLookup_insert_self (l : List (String × CredentialRecord))
    (k : String) (v : CredentialRecord) :
    dictLookup (dictInsert l k v) k = some v := by
  induction l with
  | nil => simp [dictInsert, dictLookup]
  | cons kv rest ih =>
    obtain ⟨k1, v1⟩ := kv
    by_cases h : k1 = k
    · simp [dictInsert, dictLookup, h]
    · simp [dictInsert, dictLookup, h, ih]

theorem dictLookup_ne_nil (l : List (String × CredentialRecord)) (k : String)
    (r : CredentialRecord) (h : dictLookup l k = some r) : l ≠ [] := by
  cases l with
  | nil => simp [dictLookup] at h
  | cons kv rest => simp

theorem dictInsert_of_lookup_self (l : List (String × CredentialRecord))
    (k : String) (v : CredentialRecord) (h : dictLookup l k = some v) :
    dictInsert l k v = l := by
  induction l with
  | nil => simp [dictLookup] at h
  | cons kv rest ih =>
    obtain ⟨k1, v1⟩ := kv
    by_cases hk : k1 = k
    · simp [dictLookup, hk] at h
      simp [dictInsert, hk, h]
    · simp [dictLookup, hk] at h
      simp [dictInsert, hk, ih h]

theorem dictLookup_eq_none_of_not_mem (l : List (String × CredentialRecord))
    (k : String) (h : k ∉ l.map Prod.fst) : dictLookup l k = none := by
  induction l with
  | nil => simp [dictLookup]
  | cons kv rest ih =>
    obtain ⟨k1, v1⟩ := kv
    simp only [List.map_cons, List.mem_cons] at h
    push_neg at h
    have hne : ¬ k1 = k := fun hh => h.1 hh.symm
    simp [dictLookup, hne, ih h.2]

theorem dictLookup_erase_self (l : List (String × CredentialRecord))
    (k : String) (hnd : (l.map Prod.fst).Nodup) :
    dictLookup (dictErase l k) k = none := by
  induction l with
  | nil => simp [dictErase, dictLookup]
  | cons kv rest ih =>
    obtain ⟨k1, v1⟩ := kv
    simp only [List.map_cons, List.nodup_cons] at hnd
    by_cases h : k1 = k
    · subst h
      simp only [dictErase, if_pos rfl]
      exact dictLookup_eq_none_of_not_mem rest k1 hnd.1
    · simp [dictErase, dictLookup, h, ih hnd.2]

theorem mem_keys_dictInsert (l : List (String × CredentialRecord))
    (k a : String) (v : CredentialRecord) :
    a ∈ (dictInsert l k v).map Prod.fst ↔ a ∈ l.map Prod.fst ∨ a = k := by
  induction l with
  | nil => simp [dictInsert]
  | cons kv rest ih =>
    obtain ⟨k1, v1⟩ := kv
    by_cases h : k1 = k
    · subst h
      rw [show dictInsert ((k1, v1) :: rest) k1 v = (k1, v) :: rest from by
        simp [dictInsert]]
      simp only [List.map_cons, List.mem_cons]
      tauto
    · simp only [dictInsert, if_neg h, List.map_cons, List.mem_cons, ih]
      tauto

theorem nodup_keys_dictInsert (l : List (String × CredentialRecord))
    (k : String) (v : CredentialRecord) (hnd : (l.map Prod.fst).Nodup) :
    ((dictInsert l k v).map Prod.fst).Nodup := by
  induction l with
  | nil => simp [dictInsert]
  | cons kv rest ih =>
    obtain ⟨k1, v1⟩ := kv
    simp only [List.map_cons, List.nodup_cons] at hnd
    by_cases h : k1 = k
    · simp only [dictInsert, if_pos h, List.map_cons, List.nodup_cons]
      exact ⟨hnd.1, hnd.2⟩
    · simp only [dictInsert, if_neg h, List.map_cons, List.nodup_cons]
      refine ⟨fun hm => ?_, ih hnd.2⟩
      rcases (mem_keys_dictInsert rest k k1 v).1 hm with hm1 | rfl
      · exact hnd.1 hm1
      · exact h rfl

theorem count_keys_dictInsert (l : List (String × CredentialRecord))
    (k : String) (v : CredentialRecord) (hnd : (l.map Prod.fst).Nodup) :
    ((dictInsert l k v).map Prod.fst).count k = 1 :=
  List.count_eq_one_of_mem (nodup_keys_dictInsert l k v hnd)
    ((mem_keys_dictInsert l k k v).2 (Or.inr rfl))

/-! ## Claim C5: the master digest is never modified -/

theorem applyOp_master_hash (data : VaultFile) (op : VaultOp) :
    (applyOp data op).master_hash = data.master_hash := by
  cases op with
  | add s u c l r m => rfl
  | view s => rfl
  | list => rfl
  | update s nu c l r np =>
    simp only [applyOp, update_password]
    split
    · rfl
    · split <;> rfl
  | delete s cf =>
    simp only [applyOp, delete_password]
    split
    · rfl
    · split
      · rfl
      · split <;> rfl

theorem applyOps_master_hash (data : VaultFile) (ops : List VaultOp) :
    (applyOps data ops).master_hash = data.master_hash := by
  induction ops generalizing data with
  | nil => rfl
  | cons op rest ih =>
    calc (applyOps (applyOp data op) rest).master_hash
        = (applyOp data op).master_hash := ih (applyOp data op)
      _ = data.master_hash := applyOp_master_hash data op

/-- C5. For every VaultFile and every sequence of vault operations
(add, view, list, update, delete) with any inputs, the `master_hash` field
after the operations equals its initial value; starting from the first-run
setup state it therefore always equals `hash_password` of the master
password chosen at setup.  No operation other than setup ever changes it. -/
theorem master_hash_immutable (data : VaultFile) (ops : List VaultOp) :
    (applyOps data ops).master_hash = data.master_hash ∧
    ∀ m : String,
      (applyOps (setup_master_password m) ops).master_hash = hash_password m :=
  ⟨applyOps_master_hash data ops,
   fun m => applyOps_master_hash (setup_master_password m) ops⟩


/-! ## Claim C9: generator output length and character pool -/

/-- C9. For every requested length (in particular 1, 16, 64) and every
behaviour of the random source, `generate_password` returns a string of
exactly the requested length whose characters all come from the pool of
letters, digits and punctuation. -/
theorem generate_password_spec (rand : Nat → Nat) (n : Nat) :
    (generate_password rand n).length = n ∧
    ∀ ch ∈ (generate_password rand n).toList, ch ∈ passwordChars := by
  constructor
  · simp [generate_password, String.length]
  · intro ch hch
    simp only [generate_password, String.toList] at hch
    simp only [String.mk, List.mem_map, List.mem_range] at hch
    obtain ⟨i, hi, rfl⟩ := hch
    have hpos : 0 < passwordChars.length := by decide
    have hlt : rand i % passwordChars.length < passwordChars.length :=
      Nat.mod_lt _ hpos
    rw [List.getD_eq_getElem _ _ hlt]
    exact List.getElem_mem hlt

/-! ## Claim C2: the master-password check -/

theorem verify_eq_ite (d : VaultFile) (p : Nat → String) :
    verify_master_password d p =
      if hash_password (p 0) = d.master_hash then (true, 1)
      else if hash_password (p 1) = d.master_hash then (true, 2)
      else if hash_password (p 2) = d.master_hash then (true, 3)
      else (false, 3) := rfl

theorem exists_lt_three_iff (P : Nat → Prop) :
    (∃ i, i < 3 ∧ P i) ↔ P 0 ∨ P 1 ∨ P 2 := by
  constructor
  · rintro ⟨i, hi, hp⟩
    interval_cases i <;> tauto
  · rintro (h | h | h)
    exacts [⟨0, by omega, h⟩, ⟨1, by omega, h⟩, ⟨2, by omega, h⟩]

/-- C2. `verify_master_password` consumes at most 3 attempts; it
returns `true` exactly when one of the first 3 attempts hashes to the
stored digest; it stops at the first match (returning after `i + 1`
provider calls when attempt `i` is the first correct one); and it returns
`false` after exactly 3 calls when all 3 attempts are wrong. -/
theorem verify_master_password_spec (d : VaultFile) (p : Nat → String) :
    (verify_master_password d p).2 ≤ 3 ∧
    ((verify_master_password d p).1 = true ↔
      ∃ i, i < 3 ∧ hash_password (p i) = d.master_hash) ∧
    (∀ i, i < 3 → hash_password (p i) = d.master_hash →
      (∀ j, j < i → hash_password (p j) ≠ d.master_hash) →
      verify_master_password d p = (true, i + 1)) ∧
    ((∀ i, i < 3 → hash_password (p i) ≠ d.master_hash) →
      verify_master_password d p = (false, 3)) := by
  refine ⟨?_, ?_, ?_, ?_⟩
  · rw [verify_eq_ite]
    split_ifs <;> simp
  · rw [verify_eq_ite, exists_lt_three_iff]
    split_ifs with h0 h1 h2 <;> simp [*]
  · intro i hi hh hprev
    rw [verify_eq_ite]
    interval_cases i
    · rw [if_pos hh]
    · rw [if_neg (hprev 0 (by omega)), if_pos hh]
    · rw [if_neg (hprev 0 (by omega)), if_neg (hprev 1 (by omega)), if_pos hh]
  · intro hall
    rw [verify_eq_ite, if_neg (hall 0 (by omega)), if_neg (hall 1 (by omega)),
      if_neg (hall 2 (by omega))]

/-! ## Claim C6: site-name normalization in add and view -/

/-- C6. `add` and `view` key the mapping by the trimmed, lowercased
site name: adding under `"Google"` and viewing under `"google"` returns
exactly the record that was stored; adding under `"Google"` and then under
`"GOOGLE"` overwrites, leaving exactly one entry keyed `"google"`, holding
the second record. -/
theorem add_view_normalization (data : VaultFile)
    (u c l u2 c2 l2 mp mp2 : String) (r r2 : Nat → Nat) :
    view_password (add_password data "Google" u c l r mp) "google"
      = some ⟨pyStrip u, pickedPassword c l r mp⟩ ∧
    ((data.passwords.map Prod.fst).Nodup →
      (((add_password (add_password data "Google" u c l r mp) "GOOGLE"
           u2 c2 l2 r2 mp2).passwords.map Prod.fst).count "google" = 1 ∧
       view_password (add_password (add_password data "Google" u c l r mp)
           "GOOGLE" u2 c2 l2 r2 mp2) "google"
         = some ⟨pyStrip u2, pickedPassword c2 l2 r2 mp2⟩)) := by
  have hg : normalizeSite "Google" = "google" := by decide
  have hG : normalizeSite "GOOGLE" = "google" := by decide
  have hgl : normalizeSite "google" = "google" := by decide
  refine ⟨?_, fun hnd => ⟨?_, ?_⟩⟩
  · simp [view_password, add_password, hg, hgl, dictLookup_insert_self]
  · simp only [add_password, hg, hG]
    exact count_keys_dictInsert _ _ _ (nodup_keys_dictInsert _ _ _ hnd)
  · simp [view_password, add_password, hg, hG, hgl, dictLookup_insert_self]

/-! ## Claim C7: update semantics -/

/-- C7. `update` on a nonempty vault fails with the not-found outcome
(state unchanged) when the normalized site is absent; when present it
replaces exactly the fields for which non-blank input was supplied (blank
meaning "keep current value"); with all inputs blank the state is returned
entirely unchanged. -/
theorem update_password_spec (data : VaultFile) (site nu c l np : String)
    (r : Nat → Nat) :
    (data.passwords ≠ [] →
      dictLookup data.passwords (normalizeSite site) = none →
      update_password data site nu c l r np = (data, .notFound)) ∧
    (∀ rec, dictLookup data.passwords (normalizeSite site) = some rec →
      (update_password data site nu c l r np).2 = .updated ∧
      dictLookup (update_password data site nu c l r np).1.passwords
          (normalizeSite site)
        = some ⟨if pyStrip nu ≠ "" then pyStrip nu else rec.username,
                if isYes c then generate_password r (parseLength l)
                else if np ≠ "" then np else rec.password⟩) ∧
    (∀ rec, dictLookup data.passwords (normalizeSite site) = some rec →
      pyStrip nu = "" → isYes c = false → np = "" →
      update_password data site nu c l r np = (data, .updated)) := by
  refine ⟨?_, ?_, ?_⟩
  · intro hne hnone
    simp [update_password, hne, hnone]
  · intro rec hrec
    have hne : data.passwords ≠ [] := dictLookup_ne_nil _ _ _ hrec
    constructor
    · simp [update_password, hne, hrec]
    · simp only [update_password, if_neg hne, hrec]
      rw [dictLookup_insert_self]
      congr 1
      by_cases hU : pyStrip nu = "" <;> by_cases hY : isYes c <;>
        by_cases hP : np = "" <;> simp [hU, hY, hP]
  · intro rec hrec hU hY hP
    have hne : data.passwords ≠ [] := dictLookup_ne_nil _ _ _ hrec
    simp only [update_password, if_neg hne, hrec, hU, hY, hP]
    simp [dictInsert_of_lookup_self data.passwords _ rec hrec]

/-! ## Claim C8: delete semantics -/

/-- C8. `delete` on a nonempty vault fails with the not-found outcome
when the normalized site is absent; when present, an unconfirmed delete is
a no-op (state unchanged, "cancelled" — not an error); a confirmed delete
removes the entry, after which `view` of that site finds nothing. -/
theorem delete_password_spec (data : VaultFile) (site cf : String) :
    (data.passwords ≠ [] →
      dictLookup data.passwords (normalizeSite site) = none →
      delete_password data site cf = (data, .notFound)) ∧
    (∀ rec, dictLookup data.passwords (normalizeSite site) = some rec →
      isYes cf = false →
      delete_password data site cf = (data, .cancelled)) ∧
    (∀ rec, dictLookup data.passwords (normalizeSite site) = some rec →
      isYes cf = true → (data.passwords.map Prod.fst).Nodup →
      (delete_password data site cf).2 = .deleted ∧
      view_password (delete_password data site cf).1 site = none) := by
  refine ⟨?_, ?_, ?_⟩
  · intro hne hnone
    simp [delete_password, hne, hnone]
  · intro rec hrec hcf
    have hne : data.passwords ≠ [] := dictLookup_ne_nil _ _ _ hrec
    simp [delete_password, hne, hrec, hcf]
  · intro rec hrec hcf hnd
    have hne : data.passwords ≠ [] := dictLookup_ne_nil _ _ _ hrec
    constructor
    · simp [delete_password, hne, hrec, hcf]
    · simp only [delete_password, if_neg hne, hrec, hcf, view_password]
      exact dictLookup_erase_self data.passwords _ hnd

/-! ## Claim C4: what happens when the save raises IOError -/

/-- C4 (amended). When the write fails with `IOError`, the error
propagates (uncaught) out of the operation, and the in-memory `VaultFile`
is the *post-mutation* state — identical to the state a successful save
would have left — because each operation mutates the dict before calling
`save_storage`.  The operation is therefore not atomic: the in-memory
state is *not* left unmodified on error. -/
theorem io_error_leaves_mutation (data : VaultFile)
    (s u c l nu np cf m : String) (r : Nat → Nat) :
    add_password_io data s u c l r m false
      = (add_password data s u c l r m, .error .ioError) ∧
    ((update_password data s nu c l r np).2 = .updated →
      update_password_io data s nu c l r np false
        = ((update_password data s nu c l r np).1, .updated, .error .ioError)) ∧
    ((delete_password data s cf).2 = .deleted →
      delete_password_io data s cf false
        = ((delete_password data s cf).1, .deleted, .error .ioError)) := by
  refine ⟨rfl, ?_, ?_⟩
  · intro hup
    simp only [update_password_io]
    rw [show (update_password data s nu c l r np)
          = ((update_password data s nu c l r np).1,
             (update_password data s nu c l r np).2) from rfl, hup]
    rfl
  · intro hdel
    simp only [delete_password_io]
    rw [show (delete_password data s cf)
          = ((delete_password data s cf).1,
             (delete_password data s cf).2) from rfl, hdel]
    rfl

/-- C4 (counterexample). The claim "if the write fails with IOError,
the in-memory VaultFile is left unmodified" is false: starting from the
empty vault and adding site `"site"` with a failing write, the save raises
`IOError`, yet the in-memory state now contains the new entry and differs
from the original state. -/
theorem io_error_mutates_state :
    (add_password_io ⟨"h", []⟩ "site" "user" "n" "" (fun _ => 0) "pw" false).2
      = .error .ioError ∧
    (add_password_io ⟨"h", []⟩ "site" "user" "n" "" (fun _ => 0) "pw" false).1
      ≠ (⟨"h", []⟩ : VaultFile) := by
  constructor
  · rfl
  · decide


/-! ## Round trip of the Store: hex-digit and string-escape lemmas -/

theorem char_valid_range (c : Char) :
    c.toNat < 0xd800 ∨ (0xdfff < c.toNat ∧ c.toNat < 0x110000) := c.valid

theorem hexVal_hexDigitChar (d : Nat) (h : d < 16) :
    hexVal (hexDigitChar d) = some d := by
  interval_cases d <;> rfl

theorem hex4Val_encode (n : Nat) (h : n < 65536) :
    hex4Val (hexDigitChar (n / 4096 % 16)) (hexDigitChar (n / 256 % 16))
        (hexDigitChar (n / 16 % 16)) (hexDigitChar (n % 16)) = some n := by
  unfold hex4Val
  rw [hexVal_hexDigitChar _ (by omega), hexVal_hexDigitChar _ (by omega),
    hexVal_hexDigitChar _ (by omega), hexVal_hexDigitChar _ (by omega)]
  exact congrArg some (by omega)

/-- Single-step unfolding of `parseStrBody` on a `\uXXXX` escape (the four
digit positions still symbolic). -/
theorem parseStrBody_u_step (f : Nat) (d1 d2 d3 d4 : Char) (r : List Char) :
    parseStrBody (f + 1) ('\\' :: 'u' :: d1 :: d2 :: d3 :: d4 :: r)
      = match hex4Val d1 d2 d3 d4 with
        | none => none
        | some n =>
          if n < 0xd800 ∨ 0xe000 ≤ n then
            (parseStrBody f r).map (fun p => (Char.ofNat n :: p.1, p.2))
          else if n ≤ 0xdbff then
            match r with
            | '\\' :: 'u' :: g1 :: g2 :: g3 :: g4 :: cs2 =>
              (match hex4Val g1 g2 g3 g4 with
               | none => none
               | some m =>
                 if 0xdc00 ≤ m ∧ m ≤ 0xdfff then
                   (parseStrBody f cs2).map (fun p =>
                     (Char.ofNat (0x10000 + (n - 0xd800) * 0x400 + (m - 0xdc00)) :: p.1,
                      p.2))
                 else none)
            | _ => none
          else none := rfl

theorem parseStrBody_u_escape (f n : Nat) (h : n < 65536)
    (hval : n < 0xd800 ∨ 0xe000 ≤ n) (r : List Char) :
    parseStrBody (f + 1) ('\\' :: 'u' :: escChar.hex4 n ++ r)
      = (parseStrBody f r).map (fun p => (Char.ofNat n :: p.1, p.2)) := by
  simp only [escChar.hex4, List.cons_append, List.nil_append]
  rw [parseStrBody_u_step, hex4Val_encode n h]
  show (if n < 0xd800 ∨ 0xe000 ≤ n then
          (parseStrBody f r).map (fun p => (Char.ofNat n :: p.1, p.2))
        else _) = _
  rw [if_pos hval]

theorem parseStrBody_surrogate_pair (f n m : Nat) (hn1 : 0xd800 ≤ n)
    (hn2 : n ≤ 0xdbff) (hm1 : 0xdc00 ≤ m) (hm2 : m ≤ 0xdfff) (r : List Char) :
    parseStrBody (f + 1)
        ('\\' :: 'u' :: escChar.hex4 n ++ '\\' :: 'u' :: escChar.hex4 m ++ r)
      = (parseStrBody f r).map
          (fun p => (Char.ofNat (0x10000 + (n - 0xd800) * 0x400 + (m - 0xdc00)) :: p.1,
                     p.2)) := by
  simp only [escChar.hex4, List.cons_append, List.nil_append]
  rw [parseStrBody_u_step, hex4Val_encode n (by omega)]
  show (if n < 0xd800 ∨ 0xe000 ≤ n then _ else
          if n ≤ 0xdbff then
            (match hex4Val (hexDigitChar (m / 4096 % 16)) (hexDigitChar (m / 256 % 16))
                (hexDigitChar (m / 16 % 16)) (hexDigitChar (m % 16)) with
             | none => none
             | some m2 =>
               if 0xdc00 ≤ m2 ∧ m2 ≤ 0xdfff then
                 (parseStrBody f r).map (fun p =>
                   (Char.ofNat (0x10000 + (n - 0xd800) * 0x400 + (m2 - 0xdc00)) :: p.1,
                    p.2))
               else none)
          else none) = _
  rw [if_neg (by omega), if_pos (by omega), hex4Val_encode m (by omega)]
  show (if 0xdc00 ≤ m ∧ m ≤ 0xdfff then
          (parseStrBody f r).map (fun p =>
            (Char.ofNat (0x10000 + (n - 0xd800) * 0x400 + (m - 0xdc00)) :: p.1, p.2))
        else none) = _
  rw [if_pos (by omega : 0xdc00 ≤ m ∧ m ≤ 0xdfff)]

/-- One escaped character parses back to itself, consuming one unit of
fuel and continuing with the rest of the string body. -/
theorem parseStrBody_escChar (f : Nat) (c : Char) (r : List Char) :
    parseStrBody (f + 1) (escChar c ++ r)
      = (parseStrBody f r).map (fun p => (c :: p.1, p.2)) := by
  by_cases h1 : c = '"'
  · subst h1; rfl
  by_cases h2 : c = '\\'
  · subst h2; rfl
  by_cases h3 : c.toNat = 8
  · rw [show escChar c = ['\\', 'b'] from by simp [escChar, h1, h2, h3]]
    show (parseStrBody f r).map (fun p => (Char.ofNat 8 :: p.1, p.2)) = _
    rw [show (8 : Nat) = c.toNat from h3.symm, Char.ofNat_toNat]
  by_cases h4 : c.toNat = 9
  · rw [show escChar c = ['\\', 't'] from by simp [escChar, h1, h2, h3, h4]]
    show (parseStrBody f r).map (fun p => (Char.ofNat 9 :: p.1, p.2)) = _
    rw [show (9 : Nat) = c.toNat from h4.symm, Char.ofNat_toNat]
  by_cases h5 : c.toNat = 10
  · rw [show escChar c = ['\\', 'n'] from by simp [escChar, h1, h2, h3, h4, h5]]
    show (parseStrBody f r).map (fun p => (Char.ofNat 10 :: p.1, p.2)) = _
    rw [show (10 : Nat) = c.toNat from h5.symm, Char.ofNat_toNat]
  by_cases h6 : c.toNat = 12
  · rw [show escChar c = ['\\', 'f'] from by simp [escChar, h1, h2, h3, h4, h5, h6]]
    show (parseStrBody f r).map (fun p => (Char.ofNat 12 :: p.1, p.2)) = _
    rw [show (12 : Nat) = c.toNat from h6.symm, Char.ofNat_toNat]
  by_cases h7 : c.toNat = 13
  · rw [show escChar c = ['\\', 'r'] from by
      simp [escChar, h1, h2, h3, h4, h5, h6, h7]]
    show (parseStrBody f r).map (fun p => (Char.ofNat 13 :: p.1, p.2)) = _
    rw [show (13 : Nat) = c.toNat from h7.symm, Char.ofNat_toNat]
  by_cases h8 : 0x20 ≤ c.toNat ∧ c.toNat ≤ 0x7e
  · rw [show escChar c = [c] from by simp [escChar, h1, h2, h3, h4, h5, h6, h7, h8],
      List.cons_append, List.nil_append]
    show (if c = '"' then some ([], r)
          else if c = '\\' then _
          else if 0x20 ≤ c.toNat then (parseStrBody f r).map (fun p => (c :: p.1, p.2))
          else none) = _
    rw [if_neg h1, if_neg h2, if_pos h8.1]
  by_cases h9 : c.toNat < 0x10000
  · have hval : c.toNat < 0xd800 ∨ 0xe000 ≤ c.toNat := by
      rcases char_valid_range c with h | h
      · exact Or.inl h
      · exact Or.inr (by omega)
    rw [show escChar c = '\\' :: 'u' :: escChar.hex4 c.toNat from by
      simp [escChar, h1, h2, h3, h4, h5, h6, h7, h8, h9]]
    rw [show ('\\' :: 'u' :: escChar.hex4 c.toNat) ++ r
        = '\\' :: 'u' :: escChar.hex4 c.toNat ++ r from rfl]
    rw [parseStrBody_u_escape f c.toNat h9 hval r, Char.ofNat_toNat]
  · have hv := char_valid_range c
    have hrange : 0x10000 ≤ c.toNat ∧ c.toNat < 0x110000 := by omega
    rw [show escChar c
        = '\\' :: 'u' :: escChar.hex4 (0xd800 + (c.toNat - 0x10000) / 0x400) ++
          '\\' :: 'u' :: escChar.hex4 (0xdc00 + (c.toNat - 0x10000) % 0x400) from by
      simp [escChar, h1, h2, h3, h4, h5, h6, h7, h8, h9]]
    rw [parseStrBody_surrogate_pair f (0xd800 + (c.toNat - 0x10000) / 0x400)
      (0xdc00 + (c.toNat - 0x10000) % 0x400) (by omega) (by omega) (by omega)
      (by omega) r]
    rw [show 0x10000 + (0xd800 + (c.toNat - 0x10000) / 0x400 - 0xd800) * 0x400 +
          (0xdc00 + (c.toNat - 0x10000) % 0x400 - 0xdc00) = c.toNat from by omega,
      Char.ofNat_toNat]

/-- The whole escaped string body followed by the closing quote parses back
to the original character list (with any sufficient fuel). -/
theorem parseStrBody_encode_fuel (l : List Char) :
    ∀ f r, l.length < f →
      parseStrBody f (l.flatMap escChar ++ '"' :: r) = some (l, r) := by
  induction l with
  | nil =>
    intro f r hf
    cases f with
    | zero => omega
    | succ f => rfl
  | cons c cs ih =>
    intro f r hf
    cases f with
    | zero => omega
    | succ f =>
      rw [List.flatMap_cons, List.append_assoc, parseStrBody_escChar,
        ih f r (by simp at hf ⊢; omega)]
      rfl

theorem length_le_flatMap_escChar (l : List Char) :
    l.length ≤ (l.flatMap escChar).length := by
  induction l with
  | nil => simp
  | cons c cs ih =>
    have h1 : 1 ≤ (escChar c).length := by
      unfold escChar
      split_ifs <;> simp [escChar.hex4]
    rw [List.flatMap_cons]
    simp only [List.length_append, List.length_cons]
    omega

/-- The escaped string body parses back with exactly the fuel
`parseVal`/`parseMemsWith` supply (input length plus one). -/
theorem parseStrBody_encode (l r : List Char) :
    parseStrBody ((l.flatMap escChar ++ '"' :: r).length + 1)
        (l.flatMap escChar ++ '"' :: r) = some (l, r) := by
  apply parseStrBody_encode_fuel
  have := length_le_flatMap_escChar l
  simp only [List.length_append, List.length_cons]
  omega

/-! ## Round trip of the Store: whitespace and single-step parser lemmas -/

theorem skipWs_replicate_space (n : Nat) (X : List Char) :
    skipWs (List.replicate n ' ' ++ X) = skipWs X := by
  induction n with
  | zero => simp
  | succ n ih =>
    rw [List.replicate_succ, List.cons_append]
    show skipWs (List.replicate n ' ' ++ X) = skipWs X
    exact ih

theorem skipWs_nlIndent (lvl : Nat) (X : List Char) :
    skipWs (nlIndent lvl ++ X) = skipWs X := by
  rw [nlIndent, List.cons_append]
  show skipWs (List.replicate (4 * lvl) ' ' ++ X) = skipWs X
  exact skipWs_replicate_space _ _

theorem skipWs_quote (X : List Char) : skipWs ('"' :: X) = '"' :: X := rfl

theorem skipWs_colon (X : List Char) : skipWs (':' :: X) = ':' :: X := rfl

theorem skipWs_comma (X : List Char) : skipWs (',' :: X) = ',' :: X := rfl

theorem skipWs_rbrace (X : List Char) : skipWs ('}' :: X) = '}' :: X := rfl

theorem string_mk_toList (s : String) : String.mk s.toList = s := rfl

theorem parseVal_ws (f : Nat) (X : List Char) :
    parseVal f (' ' :: X) = parseVal f X := by
  cases f <;> rfl

theorem parseMemsWith_nlIndent (pv : List Char → Option (Json × List Char))
    (g lvl : Nat) (X : List Char) :
    parseMemsWith pv g (nlIndent lvl ++ X) = parseMemsWith pv g X := by
  cases g with
  | zero => rfl
  | succ g =>
    simp only [parseMemsWith]
    rw [skipWs_nlIndent]

theorem parseVal_quote_step (f : Nat) (cs1 : List Char) :
    parseVal (f + 1) ('"' :: cs1)
      = (parseStrBody (cs1.length + 1) cs1).map
          (fun p => (Json.str (String.mk p.1), p.2)) := rfl

theorem parseVal_lbrace_step (f : Nat) (cs1 : List Char) :
    parseVal (f + 1) ('{' :: cs1)
      = match skipWs cs1 with
        | '}' :: cs2 => some (Json.obj .nil, cs2)
        | _ => (parseMemsWith (fun cs => parseVal f cs) f cs1).map
                 (fun p => (Json.obj p.1, p.2)) := rfl

theorem parseMemsWith_quote_step (pv : List Char → Option (Json × List Char))
    (g : Nat) (cs1 : List Char) :
    parseMemsWith pv (g + 1) ('"' :: cs1)
      = match parseStrBody (cs1.length + 1) cs1 with
        | some (k, cs2) =>
          (match skipWs cs2 with
           | ':' :: cs3 =>
             match pv cs3 with
             | some (v, cs4) =>
               (match skipWs cs4 with
                | ',' :: cs5 =>
                  (parseMemsWith pv g cs5).map
                    (fun p => (JMembers.cons (String.mk k) v p.1, p.2))
                | '}' :: cs5 => some (JMembers.cons (String.mk k) v .nil, cs5)
                | _ => none)
             | none => none
           | _ => none)
        | none => none := rfl

theorem jfuel_pos (j : Json) : 1 ≤ jfuel j := by
  cases j <;> simp [jfuel]

/-- Induction over the member-list spine only (the member values are not
part of the motive). -/
theorem jmembers_spine_ind (P : JMembers → Prop)
    (hnil : P JMembers.nil)
    (hcons : ∀ k v ms, P ms → P (JMembers.cons k v ms)) (ms : JMembers) :
    P ms :=
  @JMembers.rec (fun _ => True) P (fun _ => trivial) (fun _ _ => trivial)
    hnil (fun k v ms _ hm => hcons k v ms hm) ms

/-- The members of an object, as `json.dump` renders them (first member
already stripped of its leading indentation), parse back, given the
round-trip property of the value parser at fuel `f`. -/
theorem parseMems_jdump (f : Nat)
    (hS : ∀ j lvl rest, jfuel j ≤ f →
      parseVal f (jdump lvl j ++ rest) = some (j, rest)) :
    ∀ ms k v lvl g rest,
      jmemsFuel (JMembers.cons k v ms) ≤ g →
      jmemsFuel (JMembers.cons k v ms) ≤ f →
      parseMemsWith (fun cs => parseVal f cs) g
        ('"' :: (k.toList.flatMap escChar ++ ('"' :: (':' :: (' ' ::
          (jdump (lvl + 1) v ++ (jdumpMems (lvl + 1) ms ++
            (nlIndent lvl ++ ('}' :: rest)))))))))
      = some (JMembers.cons k v ms, rest) := by
  intro ms
  induction ms using jmembers_spine_ind with
  | hnil =>
    intro k v lvl g rest hg hf
    have hv : jfuel v ≤ f := by simp [jmemsFuel] at hf; omega
    cases g with
    | zero => simp [jmemsFuel] at hg
    | succ g =>
      have hSv := hS v (lvl + 1) (nlIndent lvl ++ ('}' :: rest)) hv
      rw [parseMemsWith_quote_step]
      rw [parseStrBody_encode]
      simp only [jdumpMems, List.nil_append, skipWs_colon, parseVal_ws, hSv,
        skipWs_nlIndent, skipWs_rbrace, string_mk_toList]
  | hcons k2 v2 ms2 ih =>
    intro k v lvl g rest hg hf
    have hv : jfuel v ≤ f := by simp [jmemsFuel] at hf; omega
    cases g with
    | zero => simp [jmemsFuel] at hg
    | succ g =>
      have hSv := hS v (lvl + 1)
        (jdumpMems (lvl + 1) (JMembers.cons k2 v2 ms2) ++
          (nlIndent lvl ++ ('}' :: rest))) hv
      have hih := ih k2 v2 lvl g rest
        (by simp [jmemsFuel] at hg ⊢; omega)
        (by simp [jmemsFuel] at hf ⊢; omega)
      rw [parseMemsWith_quote_step]
      rw [parseStrBody_encode]
      simp only [skipWs_colon, parseVal_ws, hSv]
      rw [show jdumpMems (lvl + 1) (JMembers.cons k2 v2 ms2) ++
            (nlIndent lvl ++ ('}' :: rest))
          = ',' :: (nlIndent (lvl + 1) ++ ('"' :: (k2.toList.flatMap escChar ++
              ('"' :: (':' :: (' ' :: (jdump (lvl + 1) v2 ++
                (jdumpMems (lvl + 1) ms2 ++ (nlIndent lvl ++ ('}' :: rest)))))))))) from by
        simp [jdumpMems, encodeJsonString, List.append_assoc]]
      simp only [skipWs_comma, parseMemsWith_nlIndent, hih, string_mk_toList]
      rfl

/-- Round trip of the serializer: With fuel at least `jfuel j`, parsing
the `json.dump` rendering of `j` (at any indentation level, with any
trailing input) returns exactly `j` and the trailing input. -/
theorem parseVal_jdump :
    ∀ f j lvl rest, jfuel j ≤ f →
      parseVal f (jdump lvl j ++ rest) = some (j, rest) := by
  intro f
  induction f using Nat.strong_induction_on with
  | _ f ih =>
    intro j lvl rest hf
    cases f with
    | zero => have := jfuel_pos j; omega
    | succ f =>
      cases j with
      | str s =>
        rw [show jdump lvl (Json.str s) ++ rest
            = '"' :: (s.toList.flatMap escChar ++ ('"' :: rest)) from by
          simp [jdump, encodeJsonString]]
        rw [parseVal_quote_step, parseStrBody_encode]
        simp [string_mk_toList]
      | obj ms =>
        cases ms with
        | nil => rfl
        | cons k v ms =>
          rw [show jdump lvl (Json.obj (JMembers.cons k v ms)) ++ rest
              = '{' :: (nlIndent (lvl + 1) ++ ('"' :: (k.toList.flatMap escChar ++
                  ('"' :: (':' :: (' ' :: (jdump (lvl + 1) v ++
                    (jdumpMems (lvl + 1) ms ++
                      (nlIndent lvl ++ ('}' :: rest)))))))))) from by
            simp [jdump, encodeJsonString, List.append_assoc]]
          rw [parseVal_lbrace_step]
          rw [skipWs_nlIndent, skipWs_quote]
          have hmems : jmemsFuel (JMembers.cons k v ms) ≤ f := by
            simp [jfuel] at hf; omega
          have hT := parseMems_jdump f
            (fun j2 lvl2 rest2 h2 => ih f (by omega) j2 lvl2 rest2 h2)
            ms k v lvl f rest hmems hmems
          simp only [parseMemsWith_nlIndent] at hT ⊢
          simp only [hT]
          rfl

/-- Simultaneous induction over the mutual `Json`/`JMembers` structure. -/
theorem json_mutual_ind (P : Json → Prop) (Q : JMembers → Prop)
    (hstr : ∀ s, P (Json.str s)) (hobj : ∀ ms, Q ms → P (Json.obj ms))
    (hnil : Q JMembers.nil)
    (hcons : ∀ k v ms, P v → Q ms → Q (JMembers.cons k v ms)) :
    (∀ j, P j) ∧ (∀ ms, Q ms) :=
  ⟨fun j => @Json.rec P Q hstr hobj hnil hcons j,
   fun ms => @JMembers.rec P Q hstr hobj hnil hcons ms⟩

/-- The dump of a value is at least as long as the fuel the parser needs
for it, so the fuel `json_loads` supplies (input length plus one) always
suffices. -/
theorem jfuel_le_jdump_length :
    (∀ j, ∀ lvl, jfuel j ≤ (jdump lvl j).length) ∧
    (∀ ms, ∀ lvl, jmemsFuel ms ≤ (jdumpMems lvl ms).length) := by
  refine json_mutual_ind (fun j => ∀ lvl, jfuel j ≤ (jdump lvl j).length)
    (fun ms => ∀ lvl, jmemsFuel ms ≤ (jdumpMems lvl ms).length) ?_ ?_ ?_ ?_
  · intro s lvl
    simp [jfuel, jdump, encodeJsonString]
  · intro ms hms lvl
    cases ms with
    | nil => simp [jfuel, jmemsFuel, jdump]
    | cons k v ms2 =>
      have h := hms (lvl + 1)
      simp only [jfuel, jmemsFuel, jdump, jdumpMems, encodeJsonString, nlIndent,
        List.length_cons, List.length_append, List.length_replicate] at h ⊢
      omega
  · intro lvl
    simp [jmemsFuel, jdumpMems]
  · intro k v ms hv hms lvl
    have h1 := hv lvl
    have h2 := hms lvl
    simp only [jmemsFuel, jdumpMems, encodeJsonString, nlIndent,
      List.length_cons, List.length_append, List.length_replicate]
    omega

theorem credFromJson_credToJson (r : CredentialRecord) :
    credFromJson (credToJson r) = some r := rfl

theorem passwordsFromJson_passwordsToJson (l : List (String × CredentialRecord)) :
    passwordsFromJson (passwordsToJson l) = some l := by
  induction l with
  | nil => rfl
  | cons kv rest ihl =>
    obtain ⟨s, r⟩ := kv
    simp [passwordsToJson, passwordsFromJson, credFromJson_credToJson, ihl]

theorem vaultFromJson_toJson (V : VaultFile) :
    vaultFromJson (toJson V) = some V := by
  show (passwordsFromJson (passwordsToJson V.passwords)).map
      (fun l => { master_hash := V.master_hash, passwords := l }) = some V
  rw [passwordsFromJson_passwordsToJson]
  rfl

/-- C1. For every valid VaultFile `V` (unique, normalized site names —
in particular with zero or several entries), writing `V` with
`save_storage` and reading the file content back with `load_storage`
succeeds and yields exactly the structure whose VaultFile reading is `V`:
the store round-trips. -/
theorem store_roundtrip (V : VaultFile) (h : validVault V) :
    load_storage (save_storage V) = .ok (toJson V) ∧
    vaultFromJson (toJson V) = some V := by
  constructor
  · have hfuel : jfuel (toJson V) ≤ (jdump 0 (toJson V)).length + 1 := by
      have := jfuel_le_jdump_length.1 (toJson V) 0
      omega
    have hr := parseVal_jdump ((jdump 0 (toJson V)).length + 1) (toJson V) 0 [] hfuel
    rw [List.append_nil] at hr
    unfold load_storage json_loads save_storage
    rw [show (String.mk (jdump 0 (toJson V))).toList = jdump 0 (toJson V) from rfl]
    rw [hr]
    rfl
  · exact vaultFromJson_toJson V

/-- Witness for C1: the round trip evaluated at a vault with zero entries
and at a vault with two entries. -/
theorem store_roundtrip_witness :
    (load_storage (save_storage ⟨"aa", []⟩) = .ok (toJson ⟨"aa", []⟩) ∧
      vaultFromJson (toJson ⟨"aa", []⟩) = some ⟨"aa", []⟩) ∧
    (load_storage (save_storage ⟨"bb", [("google", ⟨"u", "p"⟩), ("site.com", ⟨"x", "y"⟩)]⟩)
        = .ok (toJson ⟨"bb", [("google", ⟨"u", "p"⟩), ("site.com", ⟨"x", "y"⟩)]⟩) ∧
      vaultFromJson (toJson ⟨"bb", [("google", ⟨"u", "p"⟩), ("site.com", ⟨"x", "y"⟩)]⟩)
        = some ⟨"bb", [("google", ⟨"u", "p"⟩), ("site.com", ⟨"x", "y"⟩)]⟩) :=
  ⟨store_roundtrip ⟨"aa", []⟩ (by decide),
   store_roundtrip ⟨"bb", [("google", ⟨"u", "p"⟩), ("site.com", ⟨"x", "y"⟩)]⟩ (by decide)⟩

/-! ## Claim C3: unparseable persisted file -/

/-- C3 (amended). When the persisted file exists but its content
cannot be parsed, `load_storage` fails with the parse error
(`json.JSONDecodeError`, the spec's `Corrupt`); but the failure is *not*
caught at any boundary: `main.py` has no `try`/`except`, so the error
propagates out of `__main__` and the process crashes with the unhandled
raw parse error. -/
theorem corrupt_file_uncaught (content m : String)
    (h : json_loads content = none) :
    main_acquire_data (some content) m = .error .jsonDecodeError := by
  simp [main_acquire_data, load_storage, h]

/-- C3 (counterexample). A concrete input on which the program
crashes with the raw parse error: a `storage.json` containing `oops`
makes the startup load produce an uncaught `JSONDecodeError`, refuting
"this failure is caught at the operation boundary ... for no input does
the program crash with an unhandled raw parse error". -/
theorem corrupt_file_crashes :
    main_acquire_data (some "oops") "pw" = .error .jsonDecodeError := rfl

/-- Witness for the amended C3 at the concrete content `not json`. -/
theorem corrupt_file_uncaught_witness :
    json_loads "not json" = none ∧
    main_acquire_data (some "not json") "pw" = .error .jsonDecodeError :=
  ⟨rfl, corrupt_file_uncaught "not json" "pw" rfl⟩

/-! ## Claim C10: the untyped operations stay within the record shape -/

theorem jlookup_passwordsToJson (l : List (String × CredentialRecord)) (s : String) :
    jlookup (passwordsToJson l) s = (dictLookup l s).map credToJson := by
  induction l with
  | nil => rfl
  | cons kv rest ih =>
    obtain ⟨k1, v1⟩ := kv
    by_cases h : k1 = s <;> simp [passwordsToJson, jlookup, dictLookup, h, ih]

theorem jset_passwordsToJson (l : List (String × CredentialRecord))
    (s A B : String) :
    jset (passwordsToJson l) s
      (Json.obj (JMembers.cons "username" (Json.str A)
        (JMembers.cons "password" (Json.str B) JMembers.nil)))
    = passwordsToJson (dictInsert l s ⟨A, B⟩) := by
  induction l with
  | nil => rfl
  | cons kv rest ih =>
    obtain ⟨k1, v1⟩ := kv
    by_cases h : k1 = s <;> simp [passwordsToJson, jset, dictInsert, h, ih, credToJson]

theorem jerase_passwordsToJson (l : List (String × CredentialRecord)) (s : String) :
    jerase (passwordsToJson l) s = passwordsToJson (dictErase l s) := by
  induction l with
  | nil => rfl
  | cons kv rest ih =>
    obtain ⟨k1, v1⟩ := kv
    by_cases h : k1 = s <;> simp [passwordsToJson, jerase, dictErase, h, ih]

theorem jPasswords_toJson (V : VaultFile) :
    jPasswords (toJson V) = some (passwordsToJson V.passwords) := rfl

theorem jSetPasswords_toJson (V : VaultFile) (l : List (String × CredentialRecord)) :
    jSetPasswords (toJson V) (passwordsToJson l)
      = some (toJson { V with passwords := l }) := rfl

theorem jAdd_refines (V : VaultFile) (s u c l : String) (r : Nat → Nat)
    (mp : String) :
    jAdd (toJson V) s u c l r mp = some (toJson (add_password V s u c l r mp)) := by
  show jSetPasswords (toJson V) (jset (passwordsToJson V.passwords)
    (normalizeSite s) (Json.obj (JMembers.cons "username" (Json.str (pyStrip u))
      (JMembers.cons "password" (Json.str (pickedPassword c l r mp))
        JMembers.nil)))) = _
  rw [jset_passwordsToJson]
  exact jSetPasswords_toJson V _

theorem jset_user_fields (u p u2 : String) :
    jset (JMembers.cons "username" (Json.str u)
        (JMembers.cons "password" (Json.str p) JMembers.nil)) "username"
      (Json.str u2)
    = JMembers.cons "username" (Json.str u2)
        (JMembers.cons "password" (Json.str p) JMembers.nil) := rfl

theorem jset_pass_fields (u p p2 : String) :
    jset (JMembers.cons "username" (Json.str u)
        (JMembers.cons "password" (Json.str p) JMembers.nil)) "password"
      (Json.str p2)
    = JMembers.cons "username" (Json.str u)
        (JMembers.cons "password" (Json.str p2) JMembers.nil) := rfl

theorem jUpdate_refines (V : VaultFile) (s nu c l : String) (r : Nat → Nat)
    (np : String) :
    jUpdate (toJson V) s nu c l r np
      = some (toJson (update_password V s nu c l r np).1) := by
  unfold jUpdate update_password
  rw [jPasswords_toJson]
  cases hl : V.passwords with
  | nil => simp [passwordsToJson, jIsEmpty]
  | cons kv rest =>
    have hne : jIsEmpty (passwordsToJson (kv :: rest)) = false := by
      obtain ⟨k1, v1⟩ := kv
      rfl
    simp only [hl, hne, Bool.false_eq_true, if_false,
      if_neg (by simp : ¬(kv :: rest = []))]
    rw [jlookup_passwordsToJson]
    cases hlook : dictLookup (kv :: rest) (normalizeSite s) with
    | none => simp
    | some rec =>
      simp only [Option.map_some', credToJson]
      by_cases hU : pyStrip nu ≠ "" <;> by_cases hY : isYes c = true <;>
        by_cases hP : np ≠ "" <;>
        simp only [hU, hY, hP, if_true, if_false, ite_true, ite_false,
          ne_eq, not_true_eq_false, not_false_eq_true, Bool.false_eq_true,
          jset_user_fields, jset_pass_fields, jset_passwordsToJson,
          jSetPasswords_toJson] <;>
        rfl

theorem jDelete_refines (V : VaultFile) (s cf : String) :
    jDelete (toJson V) s cf = some (toJson (delete_password V s cf).1) := by
  unfold jDelete delete_password
  rw [jPasswords_toJson]
  cases hl : V.passwords with
  | nil => simp [passwordsToJson, jIsEmpty]
  | cons kv rest =>
    have hne : jIsEmpty (passwordsToJson (kv :: rest)) = false := by
      obtain ⟨k1, v1⟩ := kv
      rfl
    simp only [hl, hne, Bool.false_eq_true, if_false,
      if_neg (by simp : ¬(kv :: rest = []))]
    rw [jlookup_passwordsToJson]
    cases hlook : dictLookup (kv :: rest) (normalizeSite s) with
    | none => simp
    | some rec =>
      simp only [Option.map_some']
      by_cases hcf : isYes cf = true
      · simp only [hcf, if_true, ite_true, jerase_passwordsToJson]
        exact jSetPasswords_toJson V _
      · simp only [hcf, Bool.false_eq_true, if_false, ite_false]

theorem jApplyOp_refines (V : VaultFile) (op : VaultOp) :
    jApplyOp (toJson V) op = some (toJson (applyOp V op)) := by
  cases op with
  | add s u c l r mp => exact jAdd_refines V s u c l r mp
  | view s => rfl
  | list => rfl
  | update s nu c l r np => exact jUpdate_refines V s nu c l r np
  | delete s cf => exact jDelete_refines V s cf

theorem jApplyOps_refines (V : VaultFile) (ops : List VaultOp) :
    jApplyOps (toJson V) ops = some (toJson (applyOps V ops)) := by
  induction ops generalizing V with
  | nil => rfl
  | cons op rest ih =>
    show (match jApplyOp (toJson V) op with
          | some j1 => jApplyOps j1 rest
          | none => none) = _
    rw [jApplyOp_refines V op]
    exact ih (applyOp V op)

/-- C10. Starting from the empty mapping produced by setup, running any
sequence of menu operations directly on the raw (untyped) dict raises no
error and every value of the `passwords` mapping remains a record with
exactly the two string fields `username` and `password`; consequently
`view` on any present site finds both fields. -/
theorem untyped_ops_preserve_record_shape (m : String) (ops : List VaultOp) :
    jApplyOps (toJson (setup_master_password m)) ops
      = some (toJson (applyOps (setup_master_password m) ops)) ∧
    ∀ site e,
      jViewEntry (toJson (applyOps (setup_master_password m) ops)) site = some e →
      ∃ u p, e = Json.obj (.cons "username" (.str u)
        (.cons "password" (.str p) .nil)) := by
  refine ⟨jApplyOps_refines _ _, ?_⟩
  intro site e he
  rw [show jViewEntry (toJson (applyOps (setup_master_password m) ops)) site
      = jlookup (passwordsToJson (applyOps (setup_master_password m) ops).passwords)
          (normalizeSite site) from rfl,
    jlookup_passwordsToJson] at he
  cases hdl : dictLookup (applyOps (setup_master_password m) ops).passwords
      (normalizeSite site) with
  | none => rw [hdl] at he; simp at he
  | some r =>
    rw [hdl] at he
    simp only [Option.map_some', Option.some.injEq] at he
    exact ⟨r.username, r.password, he.symm⟩

/-- Witness for C10: one add operation from the setup state, and the shape
of the record `view` then finds under the normalized site name. -/
theorem untyped_ops_shape_witness :
    jApplyOps (toJson (setup_master_password "pw"))
        [VaultOp.add "A" "u" "n" "" (fun _ => 0) "p"]
      = some (toJson (applyOps (setup_master_password "pw")
          [VaultOp.add "A" "u" "n" "" (fun _ => 0) "p"])) ∧
    ∃ u p, credToJson ⟨"u", "p"⟩ = Json.obj (.cons "username" (.str u)
      (.cons "password" (.str p) .nil)) :=
  ⟨(untyped_ops_preserve_record_shape "pw" _).1,
   (untyped_ops_preserve_record_shape "pw"
     [VaultOp.add "A" "u" "n" "" (fun _ => 0) "p"]).2 "a" (credToJson ⟨"u", "p"⟩) rfl⟩

/-! ## Witnesses for the remaining claims -/

set_option maxRecDepth 4096 in
/-- Witness for C2: the correct password on attempt 2 (after one wrong
attempt) returns true after consuming exactly 2 attempts; three wrong
attempts return false after exactly 3. -/
theorem verify_master_password_witness :
    verify_master_password ⟨hash_password "pw", []⟩
        (fun i => if i = 0 then "wrong" else "pw") = (true, 2) ∧
    verify_master_password ⟨hash_password "pw", []⟩ (fun _ => "bad")
      = (false, 3) := by
  constructor
  · exact (verify_master_password_spec ⟨hash_password "pw", []⟩
      (fun i => if i = 0 then "wrong" else "pw")).2.2.1 1 (by omega) (by simp)
      (fun j hj => by interval_cases j <;> decide)
  · exact (verify_master_password_spec ⟨hash_password "pw", []⟩
      (fun _ => "bad")).2.2.2 (fun i hi => by interval_cases i <;> decide)

/-- Witness for C4 (amended): concrete add and update with a failing write;
the error is raised and the in-memory state is the mutated one. -/
theorem io_error_leaves_mutation_witness :
    add_password_io ⟨"h", [("a", ⟨"u", "p"⟩)]⟩ "a" "uu" "n" "" (fun _ => 0) "mp" false
      = (add_password ⟨"h", [("a", ⟨"u", "p"⟩)]⟩ "a" "uu" "n" "" (fun _ => 0) "mp",
         .error .ioError) ∧
    update_password_io ⟨"h", [("a", ⟨"u", "p"⟩)]⟩ "a" "nu" "n" "" (fun _ => 0) "np" false
      = ((update_password ⟨"h", [("a", ⟨"u", "p"⟩)]⟩ "a" "nu" "n" "" (fun _ => 0) "np").1,
         .updated, .error .ioError) ∧
    delete_password_io ⟨"h", [("a", ⟨"u", "p"⟩)]⟩ "a" "y" false
      = ((delete_password ⟨"h", [("a", ⟨"u", "p"⟩)]⟩ "a" "y").1,
         .deleted, .error .ioError) :=
  ⟨(io_error_leaves_mutation ⟨"h", [("a", ⟨"u", "p"⟩)]⟩ "a" "uu" "n" "" "nu" "np" "y"
      "mp" (fun _ => 0)).1,
   (io_error_leaves_mutation ⟨"h", [("a", ⟨"u", "p"⟩)]⟩ "a" "uu" "n" "" "nu" "np" "y"
      "mp" (fun _ => 0)).2.1 (by decide),
   (io_error_leaves_mutation ⟨"h", [("a", ⟨"u", "p"⟩)]⟩ "a" "uu" "n" "" "nu" "np" "y"
      "mp" (fun _ => 0)).2.2 (by decide)⟩

/-- Witness for C6 at a concrete starting vault. -/
theorem add_view_normalization_witness :
    view_password (add_password ⟨"h", []⟩ "Google" "u" "n" "" (fun _ => 0) "p") "google"
      = some ⟨pyStrip "u", pickedPassword "n" "" (fun _ => 0) "p"⟩ ∧
    (((add_password (add_password ⟨"h", []⟩ "Google" "u" "n" "" (fun _ => 0) "p")
        "GOOGLE" "u2" "n" "" (fun _ => 0) "p2").passwords.map Prod.fst).count "google"
      = 1 ∧
     view_password (add_password (add_password ⟨"h", []⟩ "Google" "u" "n" "" (fun _ => 0) "p")
        "GOOGLE" "u2" "n" "" (fun _ => 0) "p2") "google"
      = some ⟨pyStrip "u2", pickedPassword "n" "" (fun _ => 0) "p2"⟩) :=
  ⟨(add_view_normalization ⟨"h", []⟩ "u" "n" "" "u2" "n" "" "p" "p2"
      (fun _ => 0) (fun _ => 0)).1,
   (add_view_normalization ⟨"h", []⟩ "u" "n" "" "u2" "n" "" "p" "p2"
      (fun _ => 0) (fun _ => 0)).2 (by decide)⟩

/-- Witness for C7: a missing site is not-found with the state unchanged;
an all-blank update of an existing site leaves the state unchanged. -/
theorem update_password_spec_witness :
    update_password ⟨"h", [("google", ⟨"u", "p"⟩)]⟩ "nosite" "x" "n" "" (fun _ => 0) "x2"
      = (⟨"h", [("google", ⟨"u", "p"⟩)]⟩, .notFound) ∧
    update_password ⟨"h", [("google", ⟨"u", "p"⟩)]⟩ "google" "" "n" "" (fun _ => 0) ""
      = (⟨"h", [("google", ⟨"u", "p"⟩)]⟩, .updated) :=
  ⟨(update_password_spec ⟨"h", [("google", ⟨"u", "p"⟩)]⟩ "nosite" "x" "n" "" "x2"
      (fun _ => 0)).1 (by decide) (by decide),
   (update_password_spec ⟨"h", [("google", ⟨"u", "p"⟩)]⟩ "google" "" "n" "" ""
      (fun _ => 0)).2.2 ⟨"u", "p"⟩ (by decide) (by decide) (by decide) (by decide)⟩

/-- Witness for C8: declining leaves the entry present (no error);
confirming removes it and a subsequent view finds nothing. -/
theorem delete_password_spec_witness :
    delete_password ⟨"h", [("google", ⟨"u", "p"⟩)]⟩ "google" "n"
      = (⟨"h", [("google", ⟨"u", "p"⟩)]⟩, .cancelled) ∧
    ((delete_password ⟨"h", [("google", ⟨"u", "p"⟩)]⟩ "google" "y").2 = .deleted ∧
     view_password (delete_password ⟨"h", [("google", ⟨"u", "p"⟩)]⟩ "google" "y").1
       "google" = none) :=
  ⟨(delete_password_spec ⟨"h", [("google", ⟨"u", "p"⟩)]⟩ "google" "n").2.1
      ⟨"u", "p"⟩ (by decide) (by decide),
   (delete_password_spec ⟨"h", [("google", ⟨"u", "p"⟩)]⟩ "google" "y").2.2
      ⟨"u", "p"⟩ (by decide) (by decide) (by decide)⟩

/-- Witness for C9 at lengths 1, 16 and 64, plus one pool membership. -/
theorem generate_password_spec_witness :
    (generate_password (fun i => i) 1).length = 1 ∧
    (generate_password (fun i => i) 16).length = 16 ∧
    (generate_password (fun i => i) 64).length = 64 ∧
    'a' ∈ passwordChars :=
  ⟨(generate_password_spec (fun i => i) 1).1,
   (generate_password_spec (fun i => i) 16).1,
   (generate_password_spec (fun i => i) 64).1,
   (generate_password_spec (fun i => i) 16).2 'a' (by decide)⟩
